import Mathlib

/-!
Verification development for the `flopy.plot` package.

The package's `__init__.py` re-exports four components: `SwiConcentration`
and `plot_shapefile` from `plotutil`, `ModelMap` from `map`, and
`ModelCrossSection` from `crosssection`.  The geometry engine behind
`ModelMap` and `ModelCrossSection` (called GeometryKernel / MapView /
CrossSectionView in the design document) is not part of the sources at
hand, so those components are modelled from the specification: a grid is
an ordered vertex list plus per-cell vertex-index lists, per-cell/per-layer
active flags and top/bottom elevations, and an optional rotation/offset
applied to every vertex before any geometric computation.  Coordinates are
exact rationals.
-/

/-- Error taxonomy of the plot core (spec section 7). -/
inductive GeomError where
  | invalidGrid
  | invalidTransect
  | dimensionMismatch
deriving DecidableEq, Repr

/-- Modelled from the spec: `GridDescriptor` (spec section 3) — vertex
coordinates, cell-to-vertex topology, layer count, per-cell/per-layer
active mask and top/bottom elevations, and rotation/offset applied
uniformly to all vertices before any geometric computation.  The rotation
angle is represented by the pair `rot = (cos, sin)`; `(1, 0)` is the
unrotated state. -/
structure GridDescriptor where
  vertices : List (ℚ × ℚ)
  cells : List (List ℕ)
  num_layers : ℕ
  active : List (List Bool)
  top : List (List ℚ)
  bottom : List (List ℚ)
  rot : ℚ × ℚ
  offset : ℚ × ℚ
deriving DecidableEq

/-- Active flag of cell `c` at layer `k` (default `true`, spec: "default all true"). -/
def activeAt (g : GridDescriptor) (c k : ℕ) : Bool :=
  (g.active.getD c []).getD k true

/-- Top elevation of cell `c` at layer `k`. -/
def topAt (g : GridDescriptor) (c k : ℕ) : ℚ :=
  (g.top.getD c []).getD k 0

/-- Bottom elevation of cell `c` at layer `k`. -/
def botAt (g : GridDescriptor) (c k : ℕ) : ℚ :=
  (g.bottom.getD c []).getD k 0

/-- Rotation/offset transform applied uniformly to all vertices before any
geometric computation (spec section 3). -/
def transformPoint (r o p : ℚ × ℚ) : ℚ × ℚ :=
  (r.1 * p.1 - r.2 * p.2 + o.1, r.2 * p.1 + r.1 * p.2 + o.2)

/-- Plan-view polygon of one cell: its vertex indices resolved against the
transformed vertex table, in the cell's stored winding order. -/
def cellPoly (g : GridDescriptor) (cell : List ℕ) : List (ℚ × ℚ) :=
  cell.map (fun i => transformPoint g.rot g.offset (g.vertices.getD i (0, 0)))

/-- Cyclic edge list of a polygon. -/
def polyEdges : List (ℚ × ℚ) → List ((ℚ × ℚ) × (ℚ × ℚ))
  | [] => []
  | p :: ps => (p :: ps).zip (ps ++ [p])

/-- Twice the signed area of a polygon (shoelace sum over cyclic edges). -/
def shoelace (poly : List (ℚ × ℚ)) : ℚ :=
  (polyEdges poly).foldr (fun e a => a + (e.1.1 * e.2.2 - e.2.1 * e.1.2)) 0

/-- A cell is malformed when it references an out-of-range vertex index or
its winding order is degenerate (zero signed area). -/
def badCell (g : GridDescriptor) (cell : List ℕ) : Bool :=
  cell.any (fun i => decide (g.vertices.length ≤ i)) ||
    decide (shoelace (cellPoly g cell) = 0)

/-- Modelled from the spec: `CellPatch` (spec section 3) — a closed
plan-view polygon plus the source cell id and layer id.  The scalar value
is attached later by `MapView`, so it is not part of the kernel output. -/
structure CellPatch where
  poly : List (ℚ × ℚ)
  cellId : ℕ
  layerId : ℕ
deriving DecidableEq

/-- Plan-view area of a patch. -/
def patchArea (p : CellPatch) : ℚ :=
  |shoelace p.poly| / 2

/-- Modelled from the spec: `build_plan_patches` (spec section 4.1) —
applies the rotation/offset transform to the vertices, then builds one
polygon per cell in stored winding order; fails with `InvalidGridError`
if any cell references an out-of-range vertex index or has zero signed
area.  No active-mask clipping happens here. -/
def build_plan_patches (g : GridDescriptor) (layer : ℕ) :
    Except GeomError (List CellPatch) :=
  if g.cells.any (badCell g) then .error .invalidGrid
  else .ok ((List.range g.cells.length).map
    (fun i => ⟨cellPoly g (g.cells.getD i []), i, layer⟩))

/-- Modelled from the spec: `MapView`'s active-domain filtering (spec
section 4.2) — discard any patch whose cell is inactive at the layer. -/
def MapView.filterActive (g : GridDescriptor) (layer : ℕ)
    (ps : List CellPatch) : List CellPatch :=
  ps.filter (fun p => activeAt g p.cellId layer)

/-- Number of active cells of the grid at a layer. -/
def numActive (g : GridDescriptor) (layer : ℕ) : ℕ :=
  (List.range g.cells.length).countP (fun c => activeAt g c layer)

/-- Cross product of two plan-view vectors. -/
def cross2 (u v : ℚ × ℚ) : ℚ := u.1 * v.2 - u.2 * v.1

/-- Dot product of two plan-view vectors. -/
def dot2 (u v : ℚ × ℚ) : ℚ := u.1 * v.1 + u.2 * v.2

/-- Pointwise difference of two plan-view points. -/
def psub (u v : ℚ × ℚ) : ℚ × ℚ := (u.1 - v.1, u.2 - v.2)

/-- Point at parameter `t` on the segment from `a` to `b`. -/
def pointAt (a b : ℚ × ℚ) (t : ℚ) : ℚ × ℚ :=
  (a.1 + t * (b.1 - a.1), a.2 + t * (b.2 - a.2))

/-- Exact rational square root: exact whenever numerator and denominator
are perfect squares (as for all axis-aligned integer grids); the spec's
along-line distances are Euclidean lengths. -/
def ratSqrt (q : ℚ) : ℚ :=
  (Nat.sqrt q.num.toNat : ℚ) / (Nat.sqrt q.den : ℚ)

/-- Euclidean length of the segment from `a` to `b`. -/
def segLen (a b : ℚ × ℚ) : ℚ :=
  ratSqrt (dot2 (psub b a) (psub b a))

/-- Parameters `t` in `[0,1]` at which the segment from `a` to `b` meets
one polygon edge: the proper crossing for non-parallel edges, the two
clamped endpoint projections for a collinear edge. -/
def edgeCrossParams (a b : ℚ × ℚ) (e : (ℚ × ℚ) × (ℚ × ℚ)) : List ℚ :=
  let d := psub b a
  let w := psub e.2 e.1
  let den := cross2 d w
  if den ≠ 0 then
    let t := cross2 (psub e.1 a) w / den
    let u := cross2 (psub e.1 a) d / den
    if 0 ≤ t ∧ t ≤ 1 ∧ 0 ≤ u ∧ u ≤ 1 then [t] else []
  else if cross2 (psub e.1 a) d = 0 ∧ dot2 d d ≠ 0 then
    let tp := dot2 (psub e.1 a) d / dot2 d d
    let tq := dot2 (psub e.2 a) d / dot2 d d
    (if 0 ≤ tp ∧ tp ≤ 1 then [tp] else []) ++
      (if 0 ≤ tq ∧ tq ≤ 1 then [tq] else [])
  else []

/-- A point lies on one closed edge segment: collinear with the edge and
within the edge's coordinate extent. -/
def pointOnSeg (p : ℚ × ℚ) (e : (ℚ × ℚ) × (ℚ × ℚ)) : Bool :=
  decide (cross2 (psub e.2 e.1) (psub p e.1) = 0
    ∧ min e.1.1 e.2.1 ≤ p.1 ∧ p.1 ≤ max e.1.1 e.2.1
    ∧ min e.1.2 e.2.2 ≤ p.2 ∧ p.2 ≤ max e.1.2 e.2.2)

/-- A point lies on the polygon's boundary (on some closed edge). -/
def onBoundary (p : ℚ × ℚ) (poly : List (ℚ × ℚ)) : Bool :=
  (polyEdges poly).any (pointOnSeg p)

/-- Strict-interior point-in-polygon test, exact over the rationals: a
point on the polygon's boundary is never inside (this is the single
encapsulated tolerance policy of spec section 9); off the boundary the
crossing-number (ray casting) rule decides. -/
def pointInPoly (p : ℚ × ℚ) (poly : List (ℚ × ℚ)) : Bool :=
  !onBoundary p poly &&
    ((polyEdges poly).countP (fun e =>
        (decide (p.2 < e.1.2) != decide (p.2 < e.2.2)) &&
          decide (p.1 <
            e.1.1 + (p.2 - e.1.2) * (e.2.1 - e.1.1) / (e.2.2 - e.1.2)))) % 2 == 1

/-- Merge adjacent parametric intervals sharing an endpoint, so the kernel
emits one record per maximal inside-interval. -/
def mergeIntervals : List (ℚ × ℚ) → List (ℚ × ℚ)
  | [] => []
  | x :: rest =>
    match mergeIntervals rest with
    | [] => [x]
    | y :: out => if x.2 = y.1 then (x.1, y.2) :: out else x :: y :: out

/-- Modelled from the spec: clip one transect segment against one cell
polygon (spec section 4.1) — collect all boundary-crossing parameters,
sort them, and keep the consecutive spans whose midpoint lies strictly
inside the polygon (`pointInPoly` rejects every boundary point).  A
zero-length overlap (segment along a cell edge, grazing a vertex) has all
its span midpoints on the boundary and is thereby excluded: "touches but
does not intersect"; at a transversal crossing of a shared boundary each
positive-width span goes to the one cell strictly containing it. -/
def clipSegToPoly (a b : ℚ × ℚ) (poly : List (ℚ × ℚ)) : List (ℚ × ℚ) :=
  let params := 0 :: 1 :: (polyEdges poly).flatMap (edgeCrossParams a b)
  let s := (List.insertionSort (· ≤ ·) params).dedup
  let pairs := s.zip s.tail
  mergeIntervals (pairs.filter (fun q =>
    decide (q.1 < q.2) && pointInPoly (pointAt a b ((q.1 + q.2) / 2)) poly))

/-- Least of `x` and the entries of `l`. -/
def foldMin (x : ℚ) (l : List ℚ) : ℚ := l.foldr min x

/-- Greatest of `x` and the entries of `l`. -/
def foldMax (x : ℚ) (l : List ℚ) : ℚ := l.foldr max x

/-- Bounding-box overlap test between the segment from `a` to `b` and a
polygon (spec section 4.1: only cells whose plan-view bounding box
overlaps the segment's bounding box are clipped). -/
def bboxOverlap (a b : ℚ × ℚ) (poly : List (ℚ × ℚ)) : Bool :=
  match poly with
  | [] => false
  | p :: ps =>
    decide (min a.1 b.1 ≤ foldMax p.1 (ps.map Prod.fst)
      ∧ foldMin p.1 (ps.map Prod.fst) ≤ max a.1 b.1
      ∧ min a.2 b.2 ≤ foldMax p.2 (ps.map Prod.snd)
      ∧ foldMin p.2 (ps.map Prod.snd) ≤ max a.2 b.2)

/-- Modelled from the spec: `IntersectionRecord` (spec section 3) — the
along-line distance interval where the transect passes through one cell's
plan-view footprint, plus that layer's top/bottom elevations. -/
structure IntersectionRecord where
  cellId : ℕ
  layerId : ℕ
  d_start : ℚ
  d_end : ℚ
  top : ℚ
  bottom : ℚ
deriving DecidableEq

/-- One record per active layer for a plan-view interval of cell `c`. -/
def layerRecords (g : GridDescriptor) (c : ℕ) (d1 d2 : ℚ) :
    List IntersectionRecord :=
  (List.range g.num_layers).filterMap (fun k =>
    if activeAt g c k then some ⟨c, k, d1, d2, topAt g c k, botAt g c k⟩
    else none)

/-- Records contributed by one transect segment against one cell, with the
running along-line offset `off` already accumulated. -/
def segCellRecords (g : GridDescriptor) (off : ℚ) (a b : ℚ × ℚ) (ci : ℕ)
    (cell : List ℕ) : List IntersectionRecord :=
  let poly := cellPoly g cell
  if bboxOverlap a b poly then
    (clipSegToPoly a b poly).flatMap (fun q =>
      layerRecords g ci (off + q.1 * segLen a b) (off + q.2 * segLen a b))
  else []

/-- Records contributed by one transect segment against every cell. -/
def segRecords (g : GridDescriptor) (off : ℚ) (a b : ℚ × ℚ) :
    List IntersectionRecord :=
  (List.range g.cells.length).flatMap
    (fun ci => segCellRecords g off a b ci (g.cells.getD ci []))

/-- Walk the transect segment by segment, accumulating the running
along-line distance offset across segments. -/
def intersectSegs (g : GridDescriptor) :
    ℚ → List ((ℚ × ℚ) × (ℚ × ℚ)) → List IntersectionRecord
  | _, [] => []
  | off, s :: rest =>
    segRecords g off s.1 s.2 ++ intersectSegs g (off + segLen s.1 s.2) rest

/-- Consecutive point pairs of a transect polyline. -/
def segmentsOf (pts : List (ℚ × ℚ)) : List ((ℚ × ℚ) × (ℚ × ℚ)) :=
  pts.zip pts.tail

/-- Modelled from the spec: `intersect_transect` (spec section 4.1) —
fails with `InvalidTransectError` when the transect has fewer than two
points or any segment has zero length; otherwise walks the segments and
returns the accumulated intersection records. -/
def intersect_transect (g : GridDescriptor) (pts : List (ℚ × ℚ)) :
    Except GeomError (List IntersectionRecord) :=
  if pts.length < 2 then .error .invalidTransect
  else if (segmentsOf pts).any (fun s => decide (s.1 = s.2)) then
    .error .invalidTransect
  else .ok (intersectSegs g 0 (segmentsOf pts))

/-- Modelled from the spec: `CrossSectionView.render` (spec section 4.3) —
each record already carries the vertical polygon data (`[d_start, d_end]`
horizontally, `[bottom, top]` vertically); the view orders the emitted
polygons by `d_start` so rendering proceeds left-to-right. -/
def CrossSectionView.render (g : GridDescriptor) (pts : List (ℚ × ℚ)) :
    Except GeomError (List IntersectionRecord) :=
  (intersect_transect g pts).map
    (List.insertionSort (fun r s => r.d_start ≤ s.d_start))

/-- Exactness of `ratSqrt` on squares of naturals. -/
lemma ratSqrt_natCast_sq (n : ℕ) : ratSqrt ((n : ℚ) ^ 2) = n := by
  have h1 : ((n : ℚ) ^ 2) = ((n ^ 2 : ℕ) : ℚ) := by push_cast; ring
  rw [ratSqrt, h1, Rat.num_natCast, Rat.den_natCast, Int.toNat_natCast,
    Nat.sqrt_eq', Nat.sqrt_one]
  norm_num

/-- Concrete instance: the squared length 900 has exact square root 30. -/
lemma ratSqrt_900 : ratSqrt 900 = 30 := by
  have := ratSqrt_natCast_sq 30
  norm_num at this
  exact this

/-- The 3×3 uniform grid of the end-to-end scenario: cell width 10, origin
at `(0,0)`, all cells active, one layer with top 10 and bottom 0.  Cells
are listed row-major from the bottom-left, each in counter-clockwise
winding order. -/
def grid3 : GridDescriptor :=
  { vertices := [(0,0),(10,0),(20,0),(30,0),(0,10),(10,10),(20,10),(30,10),
      (0,20),(10,20),(20,20),(30,20),(0,30),(10,30),(20,30),(30,30)]
    cells := [[0,1,5,4],[1,2,6,5],[2,3,7,6],[4,5,9,8],[5,6,10,9],[6,7,11,10],
      [8,9,13,12],[9,10,14,13],[10,11,15,14]]
    num_layers := 1
    active := [[true],[true],[true],[true],[true],[true],[true],[true],[true]]
    top := [[10],[10],[10],[10],[10],[10],[10],[10],[10]]
    bottom := [[0],[0],[0],[0],[0],[0],[0],[0],[0]]
    rot := (1, 0)
    offset := (0, 0) }

set_option maxHeartbeats 4000000 in
/-- C1: on the concrete 3×3 uniform grid (cell width 10, origin `(0,0)`,
all cells active, one layer with top 10 and bottom 0), the transect from
`(0,15)` to `(30,15)` produces exactly three intersection records with
`[d_start, d_end]` intervals `[0,10]`, `[10,20]`, `[20,30]`, each carrying
top 10 and bottom 0. -/
theorem grid3_transect_records :
    intersect_transect grid3 [(0, 15), (30, 15)] =
      .ok [⟨3, 0, 0, 10, 10, 0⟩, ⟨4, 0, 10, 20, 10, 0⟩, ⟨5, 0, 20, 30, 10, 0⟩] := by
  norm_num [intersect_transect, segmentsOf, intersectSegs, segRecords,
    segCellRecords, clipSegToPoly, layerRecords, edgeCrossParams, pointInPoly, pointOnSeg, onBoundary,
    mergeIntervals, bboxOverlap, foldMin, foldMax, polyEdges, cellPoly,
    transformPoint, grid3, activeAt, topAt, botAt, segLen, dot2, psub, cross2,
    pointAt, List.insertionSort, List.orderedInsert, List.range_succ,
    ratSqrt_900, List.dedup_cons_of_mem, List.dedup_cons_of_not_mem,
    List.countP_cons, List.countP_nil, Prod.ext_iff, List.filterMap_cons,
    List.filterMap_nil]

/-- C6: `build_plan_patches` fails with `InvalidGridError` exactly when some
cell references an out-of-range vertex index or some cell's winding order
has zero signed area; the error is the whole result of the call, so the
grid is never silently repaired. -/
theorem build_plan_patches_invalid_iff (g : GridDescriptor) (layer : ℕ) :
    build_plan_patches g layer = .error .invalidGrid ↔
      ∃ cell ∈ g.cells, (∃ i ∈ cell, g.vertices.length ≤ i) ∨
        shoelace (cellPoly g cell) = 0 := by
  have hiff : (g.cells.any (badCell g) = true) ↔
      (∃ cell ∈ g.cells, (∃ i ∈ cell, g.vertices.length ≤ i) ∨
        shoelace (cellPoly g cell) = 0) := by
    simp [List.any_eq_true, badCell]
  by_cases h : g.cells.any (badCell g) = true
  · simp [build_plan_patches, h, hiff.mp h]
  · simp only [build_plan_patches, h]
    simp only [Bool.false_eq_true, if_false]
    constructor
    · intro hx; exact absurd hx (by simp)
    · intro hx; exact absurd (hiff.mpr hx) h

/-- C5: for every grid on which `build_plan_patches` succeeds,
`MapView`'s active-mask filtering of the produced patches yields exactly as
many patches as there are active cells at the layer, and every one of them
has non-zero plan-view area. -/
theorem mapView_active_patch_count (g : GridDescriptor) (layer : ℕ)
    (ps : List CellPatch) (h : build_plan_patches g layer = .ok ps) :
    (MapView.filterActive g layer ps).length = numActive g layer ∧
      ∀ p ∈ MapView.filterActive g layer ps, patchArea p ≠ 0 := by
  by_cases hb : g.cells.any (badCell g) = true
  · simp [build_plan_patches, hb] at h
  · have hps : ps = (List.range g.cells.length).map
        (fun i => ⟨cellPoly g (g.cells.getD i []), i, layer⟩) := by
      simp only [build_plan_patches, hb, Bool.false_eq_true, if_false] at h
      exact (Except.ok.injEq _ _ ▸ h.symm)
    constructor
    · rw [hps, MapView.filterActive, numActive, List.filter_map,
        List.length_map, List.countP_eq_length_filter]
      rfl
    · intro p hp
      rw [hps] at hp
      rw [MapView.filterActive, List.mem_filter] at hp
      obtain ⟨hpm, _⟩ := hp
      rw [List.mem_map] at hpm
      obtain ⟨i, hi, hpi⟩ := hpm
      rw [List.mem_range] at hi
      have hmem : g.cells.getD i [] ∈ g.cells := by
        rw [List.getD_eq_getElem?_getD, List.getElem?_eq_getElem hi]
        exact List.getElem_mem _
      have hbad : badCell g (g.cells.getD i []) = false := by
        have h0 : g.cells.any (badCell g) = false := Bool.eq_false_iff.mpr hb
        rw [List.any_eq_false] at h0
        exact Bool.eq_false_iff.mpr (h0 _ hmem)
      rw [badCell, Bool.or_eq_false_iff] at hbad
      have hsl : shoelace (cellPoly g (g.cells.getD i [])) ≠ 0 := by
        have := hbad.2
        simpa using this
      rw [patchArea, ← hpi]
      simp only [List.getD_eq_getElem?_getD] at hsl
      simp [hsl, abs_eq_zero]

/-- A one-cell triangular grid used to instantiate general theorems. -/
def gridTri : GridDescriptor :=
  { vertices := [(0, 0), (1, 0), (0, 1)]
    cells := [[0, 1, 2]]
    num_layers := 1
    active := [[true]]
    top := [[10]]
    bottom := [[0]]
    rot := (1, 0)
    offset := (0, 0) }

theorem mapView_active_patch_count_witness :
    (MapView.filterActive gridTri 0 [⟨[(0, 0), (1, 0), (0, 1)], 0, 0⟩]).length =
        numActive gridTri 0 ∧
      ∀ p ∈ MapView.filterActive gridTri 0 [⟨[(0, 0), (1, 0), (0, 1)], 0, 0⟩],
        patchArea p ≠ 0 :=
  mapView_active_patch_count gridTri 0 _ (by
    norm_num [build_plan_patches, badCell, cellPoly, transformPoint, shoelace,
      polyEdges, gridTri, List.range_succ, List.countP_cons, List.countP_nil])

def rotP (c s : ℚ) (p : ℚ × ℚ) : ℚ × ℚ :=
  (c * p.1 - s * p.2, s * p.1 + c * p.2)

lemma transformPoint_id (p : ℚ × ℚ) : transformPoint (1, 0) 0 p = p := by
  cases p; simp [transformPoint]

lemma transformPoint_rot (c s : ℚ) (p : ℚ × ℚ) :
    transformPoint (c, s) 0 p = rotP c s p := by
  cases p; simp [transformPoint, rotP]

lemma rotP_one_zero (p : ℚ × ℚ) : rotP 1 0 p = p := by
  cases p; simp [rotP]

lemma cellPoly_rot (g : GridDescriptor) (c s : ℚ) (hr : g.rot = (1, 0))
    (ho : g.offset = (0, 0)) (cell : List ℕ) :
    cellPoly { g with rot := (c, s) } cell = (cellPoly g cell).map (rotP c s) := by
  simp only [cellPoly, hr, ho, List.map_map]
  apply List.map_congr_left
  intro i _
  simp [Function.comp, transformPoint_rot, rotP_one_zero]

lemma polyEdges_map (f : ℚ × ℚ → ℚ × ℚ) (poly : List (ℚ × ℚ)) :
    polyEdges (poly.map f) = (polyEdges poly).map (Prod.map f f) := by
  cases poly with
  | nil => rfl
  | cons p ps =>
    show ((p :: ps).map f).zip (ps.map f ++ [f p]) =
      ((p :: ps).zip (ps ++ [p])).map (Prod.map f f)
    rw [show ps.map f ++ [f p] = (ps ++ [p]).map f by simp, List.zip_map]

lemma shoelace_map_rot (c s : ℚ) (poly : List (ℚ × ℚ)) :
    shoelace (poly.map (rotP c s)) = (c ^ 2 + s ^ 2) * shoelace poly := by
  rw [shoelace, shoelace, polyEdges_map, List.foldr_map]
  induction polyEdges poly with
  | nil => simp
  | cons e l ih =>
    simp only [List.foldr_cons]
    rw [ih]
    simp only [Prod.map, rotP]
    ring

set_option maxHeartbeats 1000000 in
/-- C4: running `build_plan_patches` on a grid with rotation `(c, s)` (a
point on the unit circle) applied yields, cell for cell, the polygons of
the unrotated run rotated by that angle; validity checking and the error
outcome are unchanged by the rotation, exactly (no tolerance is needed
over the rationals). -/
theorem build_plan_patches_rotated (g : GridDescriptor) (c s : ℚ) (layer : ℕ)
    (h1 : c ^ 2 + s ^ 2 = 1) (hr : g.rot = (1, 0)) (ho : g.offset = (0, 0)) :
    build_plan_patches { g with rot := (c, s) } layer =
      Except.map
        (List.map (fun p => CellPatch.mk (p.poly.map (rotP c s)) p.cellId p.layerId))
        (build_plan_patches g layer) := by
  have hbadf : badCell { g with rot := (c, s) } = badCell g := funext (fun cell => by
    simp [badCell, cellPoly_rot g c s hr ho, shoelace_map_rot, h1])
  unfold build_plan_patches
  simp only [hbadf]
  by_cases h : g.cells.any (badCell g) = true
  · simp [h, Except.map]
  · simp only [h, Bool.false_eq_true, if_false, Except.map, List.map_map]
    congr 1
    apply List.map_congr_left
    intro i _
    simp [Function.comp, cellPoly_rot g c s hr ho]

theorem build_plan_patches_rotated_witness :
    build_plan_patches { gridTri with rot := ((3 : ℚ)/5, (4 : ℚ)/5) } 0 =
      Except.map
        (List.map (fun p => CellPatch.mk (p.poly.map (rotP (3/5) (4/5))) p.cellId p.layerId))
        (build_plan_patches gridTri 0) :=
  build_plan_patches_rotated gridTri (3/5) (4/5) 0 (by norm_num) rfl rfl

lemma mergeIntervals_lt (l : List (ℚ × ℚ)) (h : ∀ q ∈ l, q.1 < q.2) :
    ∀ q ∈ mergeIntervals l, q.1 < q.2 := by
  induction l with
  | nil => simp [mergeIntervals]
  | cons x rest ih =>
    have hx : x.1 < x.2 := h x (by simp)
    have hrest : ∀ q ∈ rest, q.1 < q.2 := fun q hq => h q (by simp [hq])
    have ih' := ih hrest
    intro q hq
    simp only [mergeIntervals] at hq
    cases hm : mergeIntervals rest with
    | nil =>
      rw [hm] at hq
      simp at hq
      rw [hq]; exact hx
    | cons y out =>
      rw [hm] at hq
      dsimp only at hq
      have hy : y.1 < y.2 := ih' y (by rw [hm]; simp)
      by_cases hxy : x.2 = y.1
      · rw [if_pos hxy] at hq
        rcases List.mem_cons.mp hq with h1 | h2
        · rw [h1]
          exact lt_trans (hxy ▸ hx) hy
        · exact ih' q (by rw [hm]; exact List.mem_cons_of_mem _ h2)
      · rw [if_neg hxy] at hq
        rcases List.mem_cons.mp hq with h1 | h2
        · rw [h1]; exact hx
        · exact ih' q (by rw [hm]; exact h2)

lemma clipSegToPoly_lt (a b : ℚ × ℚ) (poly : List (ℚ × ℚ)) :
    ∀ q ∈ clipSegToPoly a b poly, q.1 < q.2 := by
  intro q hq
  unfold clipSegToPoly at hq
  refine mergeIntervals_lt _ ?_ q hq
  intro r hr
  rw [List.mem_filter] at hr
  have := hr.2
  rw [Bool.and_eq_true, decide_eq_true_iff] at this
  exact this.1

lemma ratSqrt_pos (q : ℚ) (h : 0 < q) : 0 < ratSqrt q := by
  rw [ratSqrt]
  apply div_pos
  · have h1 : (0 : ℤ) < q.num := Rat.num_pos.mpr h
    have h2 : 0 < q.num.toNat := by omega
    have h3 : 0 < Nat.sqrt q.num.toNat := Nat.sqrt_pos.mpr h2
    exact_mod_cast h3
  · have h2 : 0 < q.den := q.pos
    have h3 : 0 < Nat.sqrt q.den := Nat.sqrt_pos.mpr h2
    exact_mod_cast h3

lemma segLen_pos (a b : ℚ × ℚ) (h : a ≠ b) : 0 < segLen a b := by
  rw [segLen]
  apply ratSqrt_pos
  simp only [dot2, psub]
  have h2 : b.1 - a.1 ≠ 0 ∨ b.2 - a.2 ≠ 0 := by
    by_contra hc
    push_neg at hc
    exact h (Prod.ext_iff.mpr ⟨by linarith [hc.1], by linarith [hc.2]⟩)
  rcases h2 with h2 | h2
  · nlinarith [mul_self_pos.mpr h2, mul_self_nonneg (b.2 - a.2)]
  · nlinarith [mul_self_nonneg (b.1 - a.1), mul_self_pos.mpr h2]

lemma layerRecords_mem (g : GridDescriptor) (c : ℕ) (d1 d2 : ℚ)
    (r : IntersectionRecord) (h : r ∈ layerRecords g c d1 d2) :
    r.cellId = c ∧ r.layerId < g.num_layers ∧ r.d_start = d1 ∧ r.d_end = d2 ∧
      r.top = topAt g c r.layerId ∧ r.bottom = botAt g c r.layerId := by
  rw [layerRecords, List.mem_filterMap] at h
  obtain ⟨k, hk, hr⟩ := h
  rw [List.mem_range] at hk
  by_cases ha : activeAt g c k = true
  · rw [if_pos ha] at hr
    injection hr with hr
    subst hr
    exact ⟨rfl, hk, rfl, rfl, rfl, rfl⟩
  · rw [if_neg ha] at hr
    exact absurd hr (by simp)

lemma segCellRecords_width (g : GridDescriptor) (off : ℚ) (a b : ℚ × ℚ)
    (ci : ℕ) (cell : List ℕ) (hab : a ≠ b) (r : IntersectionRecord)
    (h : r ∈ segCellRecords g off a b ci cell) : r.d_start < r.d_end := by
  simp only [segCellRecords] at h
  by_cases hb : bboxOverlap a b (cellPoly g cell) = true
  · rw [if_pos hb, List.mem_flatMap] at h
    obtain ⟨q, hq, hr⟩ := h
    obtain ⟨_, _, hd1, hd2, _, _⟩ := layerRecords_mem _ _ _ _ _ hr
    rw [hd1, hd2]
    have hlt := clipSegToPoly_lt a b (cellPoly g cell) q hq
    have hL := segLen_pos a b hab
    nlinarith
  · rw [if_neg hb] at h
    exact absurd h (by simp)

lemma segRecords_width (g : GridDescriptor) (off : ℚ) (a b : ℚ × ℚ)
    (hab : a ≠ b) (r : IntersectionRecord) (h : r ∈ segRecords g off a b) :
    r.d_start < r.d_end := by
  rw [segRecords, List.mem_flatMap] at h
  obtain ⟨ci, _, hr⟩ := h
  exact segCellRecords_width g off a b ci _ hab r hr

lemma intersectSegs_width (g : GridDescriptor) (segs : List ((ℚ × ℚ) × (ℚ × ℚ))) :
    ∀ off, (∀ s ∈ segs, s.1 ≠ s.2) →
      ∀ r ∈ intersectSegs g off segs, r.d_start < r.d_end := by
  induction segs with
  | nil => intro off _ r hr; simp [intersectSegs] at hr
  | cons s rest ih =>
    intro off hs r hr
    simp only [intersectSegs, List.mem_append] at hr
    rcases hr with hr | hr
    · exact segRecords_width g off s.1 s.2 (hs s (by simp)) r hr
    · exact ih (off + segLen s.1 s.2) (fun x hx => hs x (by simp [hx])) r hr

lemma edgeCrossParams_bounds (a b : ℚ × ℚ) (e : (ℚ × ℚ) × (ℚ × ℚ))
    (t : ℚ) (ht : t ∈ edgeCrossParams a b e) : 0 ≤ t ∧ t ≤ 1 := by
  simp only [edgeCrossParams] at ht
  split at ht
  · split at ht
    next h => rw [List.mem_singleton] at ht; subst ht; exact ⟨h.1, h.2.1⟩
    next => simp at ht
  · split at ht
    next h =>
      rcases List.mem_append.mp ht with h1 | h1
      · split at h1
        next hc => rw [List.mem_singleton] at h1; subst h1; exact hc
        next => simp at h1
      · split at h1
        next hc => rw [List.mem_singleton] at h1; subst h1; exact hc
        next => simp at h1
    next => simp at ht

lemma clip_params_bounds (a b : ℚ × ℚ) (poly : List (ℚ × ℚ)) (t : ℚ)
    (ht : t ∈ (List.insertionSort (· ≤ ·)
      (0 :: 1 :: (polyEdges poly).flatMap (edgeCrossParams a b))).dedup) :
    0 ≤ t ∧ t ≤ 1 := by
  have h1 : t ∈ List.insertionSort (· ≤ ·)
      (0 :: 1 :: (polyEdges poly).flatMap (edgeCrossParams a b)) :=
    (List.dedup_sublist _).subset ht
  have h2 : t ∈ 0 :: 1 :: (polyEdges poly).flatMap (edgeCrossParams a b) :=
    (List.perm_insertionSort _ _).mem_iff.mp h1
  simp only [List.mem_cons] at h2
  rcases h2 with rfl | rfl | h2
  · norm_num
  · norm_num
  · rw [List.mem_flatMap] at h2
    obtain ⟨e, _, h3⟩ := h2
    exact edgeCrossParams_bounds a b e t h3

lemma clipSegToPoly_on_edge (a b : ℚ × ℚ) (poly : List (ℚ × ℚ))
    (h : ∀ t : ℚ, 0 ≤ t → t ≤ 1 → onBoundary (pointAt a b t) poly = true) :
    clipSegToPoly a b poly = [] := by
  simp only [clipSegToPoly]
  set s := (List.insertionSort (· ≤ ·)
    (0 :: 1 :: (polyEdges poly).flatMap (edgeCrossParams a b))).dedup with hs
  have hfil : (s.zip s.tail).filter (fun q => decide (q.1 < q.2) &&
      pointInPoly (pointAt a b ((q.1 + q.2) / 2)) poly) = [] := by
    rw [List.filter_eq_nil_iff]
    intro q hq
    obtain ⟨hq1, hq2⟩ := List.of_mem_zip hq
    rw [hs] at hq1
    have hb1 := clip_params_bounds a b poly q.1 hq1
    have hq2m := List.mem_of_mem_tail hq2
    rw [hs] at hq2m
    have hb2 := clip_params_bounds a b poly q.2 hq2m
    have hon := h ((q.1 + q.2) / 2) (by linarith [hb1.1, hb2.1])
      (by linarith [hb1.2, hb2.2])
    simp [pointInPoly, hon]
  rw [hfil]
  rfl

lemma segCellRecords_on_edge (g : GridDescriptor) (off : ℚ) (a b : ℚ × ℚ)
    (ci : ℕ) (cell : List ℕ)
    (h : ∀ t : ℚ, 0 ≤ t → t ≤ 1 →
      onBoundary (pointAt a b t) (cellPoly g cell) = true) :
    segCellRecords g off a b ci cell = [] := by
  simp only [segCellRecords]
  rw [clipSegToPoly_on_edge a b _ h]
  split <;> rfl

/-- C7: every record emitted by `intersect_transect` has strictly positive
width (`d_start < d_end`), and a segment lying exactly along a cell's
boundary — a zero-length overlap with the cell's interior — contributes no
record for that cell at all; each positive-width span is kept only by the
cell strictly containing its midpoint, so no zero-width sliver is ever
emitted. -/
theorem intersect_transect_pos_width (g : GridDescriptor)
    (pts : List (ℚ × ℚ)) (recs : List IntersectionRecord)
    (h : intersect_transect g pts = .ok recs) :
    (∀ r ∈ recs, r.d_start < r.d_end) ∧
      ∀ off : ℚ, ∀ a b : ℚ × ℚ, ∀ ci : ℕ, ∀ cell : List ℕ,
        (∀ t : ℚ, 0 ≤ t → t ≤ 1 →
          onBoundary (pointAt a b t) (cellPoly g cell) = true) →
          segCellRecords g off a b ci cell = [] := by
  constructor
  · rw [intersect_transect] at h
    by_cases h1 : pts.length < 2
    · rw [if_pos h1] at h; exact absurd h (by simp)
    · rw [if_neg h1] at h
      by_cases h2 : (segmentsOf pts).any (fun s => decide (s.1 = s.2)) = true
      · rw [if_pos h2] at h; exact absurd h (by simp)
      · rw [if_neg h2] at h
        injection h with h
        intro r hr
        refine intersectSegs_width g (segmentsOf pts) 0 ?_ r (h ▸ hr)
        intro x hx
        have h2f := Bool.eq_false_iff.mpr h2
        rw [List.any_eq_false] at h2f
        have := h2f x hx
        simpa using this
  · intro off a b ci cell hseg
    exact segCellRecords_on_edge g off a b ci cell hseg

/-- Concrete instance: the squared length 9 has exact square root 3. -/
lemma ratSqrt_nine : ratSqrt 9 = 3 := by
  have := ratSqrt_natCast_sq 3
  norm_num at this
  exact this

set_option maxHeartbeats 1000000 in
theorem intersect_transect_pos_width_witness :
    ((⟨0, 0, 1, 7/4, 10, 0⟩ : IntersectionRecord).d_start <
        (⟨0, 0, 1, 7/4, 10, 0⟩ : IntersectionRecord).d_end) ∧
      segCellRecords gridTri 0 (0, 0) (1, 0) 0 [0, 1, 2] = [] := by
  have hmain := intersect_transect_pos_width gridTri [(-1, 1/4), (2, 1/4)]
    [⟨0, 0, 1, 7/4, 10, 0⟩] (by
    norm_num [intersect_transect, segmentsOf, intersectSegs, segRecords,
      segCellRecords, clipSegToPoly, layerRecords, edgeCrossParams, pointInPoly, pointOnSeg, onBoundary,
      mergeIntervals, bboxOverlap, foldMin, foldMax, polyEdges, cellPoly,
      transformPoint, gridTri, activeAt, topAt, botAt, segLen, dot2, psub,
      cross2, pointAt, List.insertionSort, List.orderedInsert, List.range_succ,
      ratSqrt_nine, List.dedup_cons_of_mem, List.dedup_cons_of_not_mem,
      List.countP_cons, List.countP_nil, Prod.ext_iff, List.filterMap_cons,
      List.filterMap_nil])
  refine ⟨hmain.1 ⟨0, 0, 1, 7/4, 10, 0⟩ (by simp),
    hmain.2 0 (0, 0) (1, 0) 0 [0, 1, 2] ?_⟩
  intro t ht0 ht1
  rw [onBoundary, List.any_eq_true]
  refine ⟨((0, 0), (1, 0)), ?_, ?_⟩
  · norm_num [polyEdges, cellPoly, transformPoint, gridTri, Prod.ext_iff]
  · rw [pointOnSeg, decide_eq_true_iff]
    norm_num [cross2, psub, pointAt]
    exact ⟨ht0, ht1⟩

/-- All plan-view polygon points of all cells of a grid: the grid's
plan-view bounding extent is the bounding box of this list. -/
def allCellPoints (g : GridDescriptor) : List (ℚ × ℚ) :=
  g.cells.flatMap (cellPoly g)

/-- The transect lies entirely outside the grid's bounding extent: it is
strictly separated from every cell point along one of the two axes. -/
def outsideExtent (g : GridDescriptor) (pts : List (ℚ × ℚ)) : Prop :=
  (∀ p ∈ pts, ∀ q ∈ allCellPoints g, p.1 < q.1) ∨
    (∀ p ∈ pts, ∀ q ∈ allCellPoints g, q.1 < p.1) ∨
      (∀ p ∈ pts, ∀ q ∈ allCellPoints g, p.2 < q.2) ∨
        (∀ p ∈ pts, ∀ q ∈ allCellPoints g, q.2 < p.2)

lemma lt_foldMin (M x : ℚ) (l : List ℚ) (hx : M < x) (hl : ∀ y ∈ l, M < y) :
    M < foldMin x l := by
  induction l with
  | nil => exact hx
  | cons z l ih =>
    rw [foldMin, List.foldr_cons]
    exact lt_min (hl z (by simp)) (ih (fun y hy => hl y (by simp [hy])))

lemma foldMax_lt (M x : ℚ) (l : List ℚ) (hx : x < M) (hl : ∀ y ∈ l, y < M) :
    foldMax x l < M := by
  induction l with
  | nil => exact hx
  | cons z l ih =>
    rw [foldMax, List.foldr_cons]
    exact max_lt (hl z (by simp)) (ih (fun y hy => hl y (by simp [hy])))

lemma bboxOverlap_false (a b : ℚ × ℚ) (poly : List (ℚ × ℚ))
    (h : (∀ q ∈ poly, a.1 < q.1 ∧ b.1 < q.1) ∨
      (∀ q ∈ poly, q.1 < a.1 ∧ q.1 < b.1) ∨
        (∀ q ∈ poly, a.2 < q.2 ∧ b.2 < q.2) ∨
          (∀ q ∈ poly, q.2 < a.2 ∧ q.2 < b.2)) :
    bboxOverlap a b poly = false := by
  cases poly with
  | nil => rfl
  | cons p ps =>
    rw [bboxOverlap]
    rw [decide_eq_false_iff_not]
    intro ⟨c1, c2, c3, c4⟩
    rcases h with h | h | h | h
    · have hM : max a.1 b.1 < foldMin p.1 (ps.map Prod.fst) := by
        refine lt_foldMin _ _ _ (max_lt (h p (by simp)).1 (h p (by simp)).2) ?_
        intro y hy
        rw [List.mem_map] at hy
        obtain ⟨q, hq, rfl⟩ := hy
        exact max_lt (h q (by simp [hq])).1 (h q (by simp [hq])).2
      linarith
    · have hM : foldMax p.1 (ps.map Prod.fst) < min a.1 b.1 := by
        refine foldMax_lt _ _ _ (lt_min (h p (by simp)).1 (h p (by simp)).2) ?_
        intro y hy
        rw [List.mem_map] at hy
        obtain ⟨q, hq, rfl⟩ := hy
        exact lt_min (h q (by simp [hq])).1 (h q (by simp [hq])).2
      linarith
    · have hM : max a.2 b.2 < foldMin p.2 (ps.map Prod.snd) := by
        refine lt_foldMin _ _ _ (max_lt (h p (by simp)).1 (h p (by simp)).2) ?_
        intro y hy
        rw [List.mem_map] at hy
        obtain ⟨q, hq, rfl⟩ := hy
        exact max_lt (h q (by simp [hq])).1 (h q (by simp [hq])).2
      linarith
    · have hM : foldMax p.2 (ps.map Prod.snd) < min a.2 b.2 := by
        refine foldMax_lt _ _ _ (lt_min (h p (by simp)).1 (h p (by simp)).2) ?_
        intro y hy
        rw [List.mem_map] at hy
        obtain ⟨q, hq, rfl⟩ := hy
        exact lt_min (h q (by simp [hq])).1 (h q (by simp [hq])).2
      linarith

lemma outside_no_overlap (g : GridDescriptor) (pts : List (ℚ × ℚ))
    (h : outsideExtent g pts) (a b : ℚ × ℚ) (ha : a ∈ pts) (hb : b ∈ pts)
    (cell : List ℕ) (hcell : cell ∈ g.cells) :
    bboxOverlap a b (cellPoly g cell) = false := by
  apply bboxOverlap_false
  have hq : ∀ q ∈ cellPoly g cell, q ∈ allCellPoints g := by
    intro q hq
    rw [allCellPoints, List.mem_flatMap]
    exact ⟨cell, hcell, hq⟩
  rcases h with h | h | h | h
  · exact Or.inl (fun q hqq => ⟨h a ha q (hq q hqq), h b hb q (hq q hqq)⟩)
  · exact Or.inr (Or.inl (fun q hqq => ⟨h a ha q (hq q hqq), h b hb q (hq q hqq)⟩))
  · exact Or.inr (Or.inr (Or.inl (fun q hqq =>
      ⟨h a ha q (hq q hqq), h b hb q (hq q hqq)⟩)))
  · exact Or.inr (Or.inr (Or.inr (fun q hqq =>
      ⟨h a ha q (hq q hqq), h b hb q (hq q hqq)⟩)))

lemma intersectSegs_outside (g : GridDescriptor) (pts : List (ℚ × ℚ))
    (h : outsideExtent g pts) :
    ∀ segs : List ((ℚ × ℚ) × (ℚ × ℚ)),
      (∀ s ∈ segs, s.1 ∈ pts ∧ s.2 ∈ pts) →
        ∀ off, intersectSegs g off segs = [] := by
  intro segs
  induction segs with
  | nil => intro _ off; rfl
  | cons s rest ih =>
    intro hs off
    simp only [intersectSegs]
    rw [ih (fun x hx => hs x (by simp [hx])) (off + segLen s.1 s.2),
      List.append_nil, segRecords]
    rw [List.flatMap_eq_nil_iff]
    intro ci hci
    rw [List.mem_range] at hci
    have hmem : g.cells.getD ci [] ∈ g.cells := by
      rw [List.getD_eq_getElem?_getD, List.getElem?_eq_getElem hci]
      exact List.getElem_mem _
    have hov := outside_no_overlap g pts h s.1 s.2 (hs s (by simp)).1
      (hs s (by simp)).2 _ hmem
    simp only [List.getD_eq_getElem?_getD] at hov
    simp [segCellRecords, hov]

lemma segmentsOf_mem (pts : List (ℚ × ℚ)) (s : (ℚ × ℚ) × (ℚ × ℚ))
    (hs : s ∈ segmentsOf pts) : s.1 ∈ pts ∧ s.2 ∈ pts := by
  obtain ⟨x, y⟩ := s
  rw [segmentsOf] at hs
  have := List.of_mem_zip hs
  exact ⟨this.1, List.mem_of_mem_tail this.2⟩

/-- C3: `intersect_transect` fails with `InvalidTransectError` exactly when
the transect has fewer than two points or contains a zero-length segment;
in every other case it returns normally, and for a transect lying entirely
outside the grid's bounding extent it returns the empty sequence rather
than raising. -/
theorem intersect_transect_error_cases (g : GridDescriptor)
    (pts : List (ℚ × ℚ)) :
    (intersect_transect g pts = .error .invalidTransect ↔
      pts.length < 2 ∨ ∃ s ∈ segmentsOf pts, s.1 = s.2)
    ∧ (¬(pts.length < 2 ∨ ∃ s ∈ segmentsOf pts, s.1 = s.2) →
        intersect_transect g pts = .ok (intersectSegs g 0 (segmentsOf pts)))
    ∧ (outsideExtent g pts →
        ¬(pts.length < 2 ∨ ∃ s ∈ segmentsOf pts, s.1 = s.2) →
          intersect_transect g pts = .ok []) := by
  by_cases h1 : pts.length < 2
  · refine ⟨?_, ?_, ?_⟩
    · rw [intersect_transect, if_pos h1]
      simp [h1]
    · intro hn; exact absurd (Or.inl h1) hn
    · intro _ hn; exact absurd (Or.inl h1) hn
  · by_cases h2 : (segmentsOf pts).any (fun s => decide (s.1 = s.2)) = true
    · have h2' : ∃ s ∈ segmentsOf pts, s.1 = s.2 := by
        simpa using List.any_eq_true.mp h2
      refine ⟨?_, ?_, ?_⟩
      · rw [intersect_transect, if_neg h1, if_pos h2]
        simp [h2']
      · intro hn; exact absurd (Or.inr h2') hn
      · intro _ hn; exact absurd (Or.inr h2') hn
    · have hok : intersect_transect g pts =
          .ok (intersectSegs g 0 (segmentsOf pts)) := by
        rw [intersect_transect, if_neg h1, if_neg h2]
      have hno : ¬∃ s ∈ segmentsOf pts, s.1 = s.2 := by
        intro ⟨s, hs, hss⟩
        have h2' := Bool.eq_false_iff.mpr h2
        rw [List.any_eq_false] at h2'
        have := h2' s hs
        simp [hss] at this
      refine ⟨?_, ?_, ?_⟩
      · rw [hok]
        simp [h1, hno]
      · intro _; exact hok
      · intro hout _
        rw [hok]
        congr 1
        exact intersectSegs_outside g pts hout (segmentsOf pts)
          (fun s hs => segmentsOf_mem pts s hs) 0

theorem intersect_transect_error_cases_witness :
    intersect_transect gridTri [(100, 0), (101, 0)] = .ok [] :=
  (intersect_transect_error_cases gridTri [(100, 0), (101, 0)]).2.2
    (Or.inr (Or.inl (by
      norm_num [allCellPoints, cellPoly, transformPoint, gridTri])))
    (by
      norm_num [segmentsOf, Prod.ext_iff])

/-- Stratigraphic validity of a grid: within every cell, each layer's
bottom lies at or below its top, and each layer's bottom coincides with
the next layer's top (layers are stacked top to bottom without gaps). -/
def stratOK (g : GridDescriptor) : Prop :=
  (∀ c < g.cells.length, ∀ k < g.num_layers, botAt g c k ≤ topAt g c k) ∧
    (∀ c < g.cells.length, ∀ k, k + 1 < g.num_layers →
      topAt g c (k + 1) = botAt g c k)

lemma strat_chain (g : GridDescriptor) (hs : stratOK g) (c : ℕ)
    (hc : c < g.cells.length) :
    ∀ k1 k2, k1 < k2 → k2 < g.num_layers → topAt g c k2 ≤ botAt g c k1 := by
  intro k1 k2
  induction k2 with
  | zero => intro h _; exact absurd h (Nat.not_lt_zero k1)
  | succ n ih =>
    intro h1 h2
    have htop : topAt g c (n + 1) = botAt g c n := hs.2 c hc n h2
    rcases Nat.lt_succ_iff_lt_or_eq.mp h1 with h | h
    · calc topAt g c (n + 1) = botAt g c n := htop
        _ ≤ topAt g c n := hs.1 c hc n (by omega)
        _ ≤ botAt g c k1 := ih h (by omega)
    · rw [htop, h]

lemma segCellRecords_shape (g : GridDescriptor) (off : ℚ) (a b : ℚ × ℚ)
    (ci : ℕ) (hci : ci < g.cells.length) (cell : List ℕ)
    (r : IntersectionRecord) (h : r ∈ segCellRecords g off a b ci cell) :
    r.cellId < g.cells.length ∧ r.layerId < g.num_layers ∧
      r.top = topAt g r.cellId r.layerId ∧
        r.bottom = botAt g r.cellId r.layerId := by
  simp only [segCellRecords] at h
  by_cases hb : bboxOverlap a b (cellPoly g cell) = true
  · rw [if_pos hb, List.mem_flatMap] at h
    obtain ⟨q, _, hr⟩ := h
    obtain ⟨hcid, hk, _, _, ht, hbo⟩ := layerRecords_mem _ _ _ _ _ hr
    rw [hcid]
    exact ⟨hci, hk, ht, hbo⟩
  · rw [if_neg hb] at h
    exact absurd h (by simp)

lemma intersectSegs_shape (g : GridDescriptor)
    (segs : List ((ℚ × ℚ) × (ℚ × ℚ))) :
    ∀ off, ∀ r ∈ intersectSegs g off segs,
      r.cellId < g.cells.length ∧ r.layerId < g.num_layers ∧
        r.top = topAt g r.cellId r.layerId ∧
          r.bottom = botAt g r.cellId r.layerId := by
  induction segs with
  | nil => intro off r hr; simp [intersectSegs] at hr
  | cons s rest ih =>
    intro off r hr
    simp only [intersectSegs, List.mem_append] at hr
    rcases hr with hr | hr
    · rw [segRecords, List.mem_flatMap] at hr
      obtain ⟨ci, hci, hrc⟩ := hr
      rw [List.mem_range] at hci
      exact segCellRecords_shape g off s.1 s.2 ci hci _ r hrc
    · exact ih (off + segLen s.1 s.2) r hr

/-- C8: in every cross-section produced by `CrossSectionView.render` on a
stratigraphically valid grid, two emitted polygons of the same cell column
and horizontal interval with ordered layers have vertically disjoint
extents, and extents that are exactly contiguous when the layers are
adjacent: no two emitted polygons overlap in the vertical dimension. -/
theorem crossSection_layers_disjoint (g : GridDescriptor)
    (pts : List (ℚ × ℚ)) (polys : List IntersectionRecord)
    (hs : stratOK g) (h : CrossSectionView.render g pts = .ok polys)
    (r1 r2 : IntersectionRecord) (h1 : r1 ∈ polys) (h2 : r2 ∈ polys)
    (hc : r1.cellId = r2.cellId) (hd1 : r1.d_start = r2.d_start)
    (hd2 : r1.d_end = r2.d_end) (hk : r1.layerId < r2.layerId) :
    r2.top ≤ r1.bottom ∧ (r2.layerId = r1.layerId + 1 → r2.top = r1.bottom) := by
  rw [CrossSectionView.render] at h
  cases hI : intersect_transect g pts with
  | error e => rw [hI] at h; exact absurd h (by simp [Except.map])
  | ok recs =>
    rw [hI] at h
    simp only [Except.map, Except.ok.injEq] at h
    have hperm : ∀ r ∈ polys, r ∈ recs := by
      intro r hr
      rw [← h] at hr
      exact (List.Perm.mem_iff (List.perm_insertionSort _ recs)).mp hr
    rw [intersect_transect] at hI
    by_cases ha : pts.length < 2
    · rw [if_pos ha] at hI; exact absurd hI (by simp)
    · rw [if_neg ha] at hI
      by_cases hb : (segmentsOf pts).any (fun s => decide (s.1 = s.2)) = true
      · rw [if_pos hb] at hI; exact absurd hI (by simp)
      · rw [if_neg hb] at hI
        injection hI with hI
        have hsh : ∀ r ∈ recs,
            r.cellId < g.cells.length ∧ r.layerId < g.num_layers ∧
              r.top = topAt g r.cellId r.layerId ∧
                r.bottom = botAt g r.cellId r.layerId := by
          intro r hr
          exact intersectSegs_shape g (segmentsOf pts) 0 r (hI ▸ hr)
        obtain ⟨hc1, hk1, ht1, hb1⟩ := hsh r1 (hperm r1 h1)
        obtain ⟨hc2, hk2, ht2, hb2⟩ := hsh r2 (hperm r2 h2)
        constructor
        · rw [ht2, hb1, ← hc]
          exact strat_chain g hs r1.cellId hc1 r1.layerId r2.layerId hk hk2
        · intro hadj
          rw [ht2, hb1, ← hc, hadj]
          exact hs.2 r1.cellId hc1 r1.layerId (by omega)

/-- A one-cell two-layer grid used to instantiate the cross-section
invariant: upper layer from elevation 10 down to 5, lower layer from 5
down to 0. -/
def gridTwo : GridDescriptor :=
  { vertices := [(0, 0), (10, 0), (10, 10), (0, 10)]
    cells := [[0, 1, 2, 3]]
    num_layers := 2
    active := [[true, true]]
    top := [[10, 5]]
    bottom := [[5, 0]]
    rot := (1, 0)
    offset := (0, 0) }

/-- Concrete instance: the squared length 144 has exact square root 12. -/
lemma ratSqrt_144 : ratSqrt 144 = 12 := by
  have := ratSqrt_natCast_sq 12
  norm_num at this
  exact this

set_option maxHeartbeats 1000000 in
theorem crossSection_layers_disjoint_witness :
    (⟨0, 1, 1, 11, 5, 0⟩ : IntersectionRecord).top ≤
        (⟨0, 0, 1, 11, 10, 5⟩ : IntersectionRecord).bottom ∧
      ((⟨0, 1, 1, 11, 5, 0⟩ : IntersectionRecord).layerId =
          (⟨0, 0, 1, 11, 10, 5⟩ : IntersectionRecord).layerId + 1 →
        (⟨0, 1, 1, 11, 5, 0⟩ : IntersectionRecord).top =
          (⟨0, 0, 1, 11, 10, 5⟩ : IntersectionRecord).bottom) :=
  crossSection_layers_disjoint gridTwo [(-1, 5), (11, 5)]
    [⟨0, 0, 1, 11, 10, 5⟩, ⟨0, 1, 1, 11, 5, 0⟩]
    (by
      constructor
      · intro c hc k hk
        have e1 : gridTwo.cells.length = 1 := rfl
        have e2 : gridTwo.num_layers = 2 := rfl
        have hc0 : c = 0 := by omega
        have hk2 : k < 2 := by omega
        subst hc0
        interval_cases k <;> norm_num [topAt, botAt, gridTwo]
      · intro c hc k hk
        have e1 : gridTwo.cells.length = 1 := rfl
        have e2 : gridTwo.num_layers = 2 := rfl
        have hc0 : c = 0 := by omega
        have hk0 : k = 0 := by omega
        subst hc0; subst hk0
        norm_num [topAt, botAt, gridTwo])
    (by
      norm_num [CrossSectionView.render, intersect_transect, segmentsOf,
        intersectSegs, segRecords, segCellRecords, clipSegToPoly, layerRecords,
        edgeCrossParams, pointInPoly, pointOnSeg, onBoundary, mergeIntervals, bboxOverlap, foldMin,
        foldMax, polyEdges, cellPoly, transformPoint, gridTwo, activeAt, topAt,
        botAt, segLen, dot2, psub, cross2, pointAt, List.insertionSort,
        List.orderedInsert, List.range_succ, ratSqrt_144,
        List.dedup_cons_of_mem, List.dedup_cons_of_not_mem, List.countP_cons,
        List.countP_nil, Prod.ext_iff, List.filterMap_cons, List.filterMap_nil,
        Except.map])
    ⟨0, 0, 1, 11, 10, 5⟩ ⟨0, 1, 1, 11, 5, 0⟩
    (by simp) (by simp) rfl rfl rfl (by norm_num)

/-- Modelled from the spec: the closed-form density-corrected
concentration for one cell.  The spec fixes only the interface of
`SwiConcentration` (section 4.4), not the formula, so a representative
closed form combining the head difference and the density contrast is
used; the claims below depend only on it being a pure elementwise
function. -/
def swiFormula (hf hs df ds : ℚ) : ℚ :=
  (ds - df) * (hs - hf)

/-- Modelled from the spec: `SwiConcentration.compute` (spec section 4.4)
— a pure elementwise transform of the four input arrays, failing with
`DimensionMismatchError` when the input arrays have differing lengths. -/
def SwiConcentration.compute (hf hs df ds : List ℚ) :
    Except GeomError (List ℚ) :=
  if hf.length = hs.length ∧ hs.length = df.length ∧ df.length = ds.length then
    .ok ((hf.zip (hs.zip (df.zip ds))).map
      (fun t => swiFormula t.1 t.2.1 t.2.2.1 t.2.2.2))
  else .error .dimensionMismatch

/-- C9: `SwiConcentration.compute` fails with `DimensionMismatchError`
exactly when its input arrays have differing lengths; on equal-length
inputs it returns the elementwise result, and being a pure function it is
deterministic: equal results on identical inputs, with no other failure
mode. -/
theorem swiConcentration_compute_spec (a b c d : List ℚ) :
    (¬(a.length = b.length ∧ b.length = c.length ∧ c.length = d.length) →
      SwiConcentration.compute a b c d = .error .dimensionMismatch)
    ∧ ((a.length = b.length ∧ b.length = c.length ∧ c.length = d.length) →
      SwiConcentration.compute a b c d =
        .ok ((a.zip (b.zip (c.zip d))).map
          (fun t => swiFormula t.1 t.2.1 t.2.2.1 t.2.2.2)))
    ∧ (∀ o1 o2, SwiConcentration.compute a b c d = .ok o1 →
        SwiConcentration.compute a b c d = .ok o2 → o1 = o2) := by
  refine ⟨?_, ?_, ?_⟩
  · intro h
    rw [SwiConcentration.compute, if_neg h]
  · intro h
    rw [SwiConcentration.compute, if_pos h]
  · intro o1 o2 h1 h2
    rw [h1] at h2
    injection h2

theorem swiConcentration_compute_spec_witness :
    SwiConcentration.compute [1, 2] [3, 4] [5, 6] [10, 10] =
      .ok (([(1 : ℚ), 2].zip ([(3 : ℚ), 4].zip ([(5 : ℚ), 6].zip [(10 : ℚ), 10]))).map
        (fun t => swiFormula t.1 t.2.1 t.2.2.1 t.2.2.2)) :=
  (swiConcentration_compute_spec [1, 2] [3, 4] [5, 6] [10, 10]).2.1
    (by norm_num)

/-- One re-export statement of the package's `__init__.py`: a public name
and the submodule it is imported from. -/
structure ModuleExport where
  name : String
  srcModule : String
deriving DecidableEq

/-- Embedding of `src/flopy/plot/__init__.py`: its executable content is
exactly the three `from ... import ...` statements binding these four
names at package level. -/
def flopyPlotExports : List ModuleExport :=
  [⟨"SwiConcentration", "plotutil"⟩, ⟨"plot_shapefile", "plotutil"⟩,
    ⟨"ModelMap", "map"⟩, ⟨"ModelCrossSection", "crosssection"⟩]

/-- C10: the public interface of the plot package consists of exactly four
names — `SwiConcentration` and `plot_shapefile` from `plotutil`,
`ModelMap` from `map`, `ModelCrossSection` from `crosssection` — with no
duplicates and no other public component bound by importing the package. -/
theorem flopy_plot_public_interface :
    flopyPlotExports.length = 4
    ∧ (flopyPlotExports.map ModuleExport.name).Nodup
    ∧ (∀ n, (∃ e ∈ flopyPlotExports, e.name = n) ↔
        n ∈ ["SwiConcentration", "plot_shapefile", "ModelMap", "ModelCrossSection"])
    ∧ (∀ e ∈ flopyPlotExports,
        (e.name = "SwiConcentration" → e.srcModule = "plotutil")
        ∧ (e.name = "plot_shapefile" → e.srcModule = "plotutil")
        ∧ (e.name = "ModelMap" → e.srcModule = "map")
        ∧ (e.name = "ModelCrossSection" → e.srcModule = "crosssection")) := by
  refine ⟨rfl, by decide, ?_, by decide⟩
  intro n
  constructor
  · intro ⟨e, he, hn⟩
    fin_cases he <;> simp_all [flopyPlotExports]
  · intro hn
    simp only [List.mem_cons, List.not_mem_nil, or_false] at hn
    rcases hn with rfl | rfl | rfl | rfl
    · exact ⟨⟨"SwiConcentration", "plotutil"⟩, by simp [flopyPlotExports]⟩
    · exact ⟨⟨"plot_shapefile", "plotutil"⟩, by simp [flopyPlotExports]⟩
    · exact ⟨⟨"ModelMap", "map"⟩, by simp [flopyPlotExports]⟩
    · exact ⟨⟨"ModelCrossSection", "crosssection"⟩, by simp [flopyPlotExports]⟩
